import Mathlib

/-!
Shallow embedding of the CDR dashboard's schema-normalization core
(`standardize_columns` in `App.py`), together with theorems settling the
frozen claims about it.

Modelling conventions:
* a table cell is the tagged union {missing, string, number, timestamp, bool}
  (the spec's §3/§9 representation of untyped cells); `Cell.time t` stands for
  a value that pandas' lenient datetime parser accepts, with epoch-second
  meaning `t`, and `Cell.num q` for a numeric value (floats modelled by `Rat`,
  so the 0.6 inference threshold is the exact rational 3/5);
* `pd.to_datetime(..., errors="coerce")` / `pd.to_numeric(..., errors="coerce")`
  become total functions into `Option` (`none` = NaT/NaN);
* a pandas column that holds only float NaN (the unresolved-field case) is a
  `none`-valued `Option` field, while the string `"nan"` produced by
  `astype(str)` on a missing cell stays a real string — the two are distinct,
  exactly as in pandas;
* the `AttributeError` raised by `.str.lower()` on a non-string (float NaN)
  column is modelled by `Except.error`; everything else is `Except.ok`.
  pandas' `.str` accessor does succeed on a zero-length column
  (`infer_dtype` of an empty array is `"empty"`), so the error fires only
  when the table has at least one row;
* string case mapping is modelled on ASCII letters (the only case the
  repository's alias lists and synonym maps exercise).
-/

namespace CdrDash

/-- Cell values of an ingested table: tagged union decoded explicitly by each
field's parse rule. -/
inductive Cell where
  | missing
  | str (s : String)
  | num (q : Rat)
  | time (t : Int)
  | boolean (b : Bool)
  deriving DecidableEq, Repr

/-- Model of `pd.to_datetime(x, errors="coerce")` on one cell: a timestamp
cell parses to itself, a missing cell to NaT, anything else fails to parse. -/
def to_datetime : Cell → Option Int
  | Cell.time t => some t
  | _ => none

/-- Model of `pd.to_numeric(x, errors="coerce")` on one cell (booleans coerce
to 1/0 as in pandas; non-numeric text and timestamps degrade to NaN). -/
def to_numeric : Cell → Option Rat
  | Cell.num q => some q
  | Cell.boolean b => some (if b then 1 else 0)
  | _ => none

/-- Model of `.astype(str)` on one cell: `str(np.nan)` is the literal string
`"nan"`; renderings of non-string scalars are abstracted by `toString`. -/
def astype_str : Cell → String
  | Cell.missing => "nan"
  | Cell.str s => s
  | Cell.num q => toString q
  | Cell.time t => toString t
  | Cell.boolean b => if b then "True" else "False"

/-- ASCII lower-casing of one character (Python `str.lower` on the
characters the repository's data exercises). -/
def lowerChar (c : Char) : Char :=
  if c = 'A' then 'a' else if c = 'B' then 'b' else if c = 'C' then 'c'
  else if c = 'D' then 'd' else if c = 'E' then 'e' else if c = 'F' then 'f'
  else if c = 'G' then 'g' else if c = 'H' then 'h' else if c = 'I' then 'i'
  else if c = 'J' then 'j' else if c = 'K' then 'k' else if c = 'L' then 'l'
  else if c = 'M' then 'm' else if c = 'N' then 'n' else if c = 'O' then 'o'
  else if c = 'P' then 'p' else if c = 'Q' then 'q' else if c = 'R' then 'r'
  else if c = 'S' then 's' else if c = 'T' then 't' else if c = 'U' then 'u'
  else if c = 'V' then 'v' else if c = 'W' then 'w' else if c = 'X' then 'x'
  else if c = 'Y' then 'y' else if c = 'Z' then 'z' else c

/-- ASCII upper-casing of one character (Python `str.upper`). -/
def upperChar (c : Char) : Char :=
  if c = 'a' then 'A' else if c = 'b' then 'B' else if c = 'c' then 'C'
  else if c = 'd' then 'D' else if c = 'e' then 'E' else if c = 'f' then 'F'
  else if c = 'g' then 'G' else if c = 'h' then 'H' else if c = 'i' then 'I'
  else if c = 'j' then 'J' else if c = 'k' then 'K' else if c = 'l' then 'L'
  else if c = 'm' then 'M' else if c = 'n' then 'N' else if c = 'o' then 'O'
  else if c = 'p' then 'P' else if c = 'q' then 'Q' else if c = 'r' then 'R'
  else if c = 's' then 'S' else if c = 't' then 'T' else if c = 'u' then 'U'
  else if c = 'v' then 'V' else if c = 'w' then 'W' else if c = 'x' then 'X'
  else if c = 'y' then 'Y' else if c = 'z' then 'Z' else c

/-- Python `str.lower`. -/
def lowerStr (s : String) : String :=
  String.mk (s.data.map lowerChar)

/-- Python `str.upper`. -/
def upperStr (s : String) : String :=
  String.mk (s.data.map upperChar)

/-- Whitespace characters removed by Python `str.strip`. -/
def isSpaceChar (c : Char) : Bool :=
  c = ' ' || c = '\t' || c = '\n' || c = '\r'

/-- Python `str.strip` on a character list. -/
def trimChars (l : List Char) : List Char :=
  ((l.dropWhile isSpaceChar).reverse.dropWhile isSpaceChar).reverse

/-- Column-name normalization, `c.strip().lower().replace(" ", "_")`
(line 29 of `App.py`). -/
def normalizeName (s : String) : String :=
  String.mk (((trimChars s.data).map lowerChar).map
    (fun ch => if ch = ' ' then '_' else ch))

/-- Whether `sub` occurs at the start of `s` (character lists). -/
def prefChars : List Char → List Char → Bool
  | [], _ => true
  | _ :: _, [] => false
  | a :: as, b :: bs => a == b && prefChars as bs

/-- Whether `sub` occurs anywhere in `s` (character lists). -/
def subOccurs (sub : List Char) : List Char → Bool
  | [] => prefChars sub []
  | l@(_ :: rest) => prefChars sub l || subOccurs sub rest

/-- Python's substring test `sub in s` (also the semantics of
`Series.str.contains` with an alternation of literal keywords). -/
def containsSub (s sub : String) : Bool :=
  subOccurs sub.data s.data

/-- The heuristic alias catalog `mapping_candidates` (lines 33-50 of
`App.py`): canonical field name, then its priority-ordered alias list. -/
def mapping_candidates : List (String × List String) :=
  [ ("start_time", ["start_time", "call_start", "start", "timestamp",
      "start_datetime", "setup_time", "connect_time", "event_time"])
  , ("end_time", ["end_time", "call_end", "end", "release_time",
      "disconnect_time"])
  , ("duration_sec", ["duration_sec", "duration", "call_duration", "bill_sec",
      "billable_seconds", "talk_time", "conversation_time_sec"])
  , ("caller", ["caller", "calling", "calling_party", "a_number", "ani",
      "msisdn_a"])
  , ("callee", ["callee", "called", "called_party", "b_number", "dnis",
      "msisdn_b"])
  , ("direction", ["direction", "call_direction", "in_out",
      "inbound_outbound"])
  , ("status", ["status", "cause", "release_cause", "disposition", "result",
      "sip_response", "q850_cause"])
  , ("operator", ["operator", "carrier", "vendor", "trunk", "gateway",
      "route"])
  , ("country", ["country", "dest_country", "destination_country"])
  , ("mcc", ["mcc"])
  , ("mnc", ["mnc"])
  , ("cell_id", ["cell_id", "cellid", "cell", "lac_cell"])
  , ("imsi", ["imsi"])
  , ("imei", ["imei"])
  , ("setup_time_ms", ["setup_time_ms", "post_dial_delay_ms", "pdd_ms",
      "ring_time_ms"])
  , ("cost", ["cost", "charge", "amount", "revenue"]) ]

/-- Alias list of one canonical field. -/
def aliases (k : String) : List String :=
  (mapping_candidates.lookup k).getD []

/-- A raw input table: ordered column names and ordered rows, each row holding
cells positionally aligned with the column list. -/
structure RawTable where
  cols : List String
  rows : List (List Cell)
  deriving DecidableEq, Repr

/-- Column names after the rename of line 30 of `App.py`. -/
def normColsOf (df : RawTable) : List String :=
  df.cols.map normalizeName

/-- Value of column `c` in one row (first occurrence wins for duplicated
normalized names, matching a stable left-to-right scan). -/
def getCell (cols : List String) (row : List Cell) (c : String) : Cell :=
  match cols.findIdx? (fun x => x == c) with
  | some i => row.getD i Cell.missing
  | none => Cell.missing

/-- Alias resolution for one canonical field (lines 52-57 of `App.py`): the
first alias present among the normalized column names, if any. -/
def resolveField (cols : List String) (k : String) : Option String :=
  (aliases k).find? (fun cand => cols.contains cand)

/-- `canon[k]` computed from a table's normalized column names. -/
def canonOf (df : RawTable) (k : String) : Option String :=
  resolveField (normColsOf df) k

/-- The fraction `try_col.notna().mean()` for candidate column `c`: the share
of ALL rows whose value in `c` parses as a timestamp (the mean over an empty
table is NaN, and `NaN > 0.6` is false, so zero rows select nothing). -/
def parsedFrac (cols : List String) (rows : List (List Cell)) (c : String) :
    Rat :=
  if rows.length = 0 then 0
  else (rows.countP (fun r => (to_datetime (getCell cols r c)).isSome) : Rat)
    / (rows.length : Rat)

/-- Whether a normalized column name makes the inference candidate list:
`any(s in c for s in ["time", "date"])` (line 68 of `App.py`). -/
def timeDateName (c : String) : Bool :=
  containsSub c "time" || containsSub c "date"

/-- Content-based fallback inference of `start_time` (lines 66-76 of
`App.py`): first candidate column whose parsed fraction exceeds 0.6. -/
def inferStart (cols : List String) (rows : List (List Cell)) :
    Option String :=
  cols.find? (fun c => timeDateName c && parsedFrac cols rows c > (3 : Rat)/5)

/-- Resolved source of `start_time`: alias match, else content inference. -/
def canonStartOf (df : RawTable) : Option String :=
  match canonOf df "start_time" with
  | some c => some c
  | none => inferStart (normColsOf df) df.rows

/-- The parsed `start_time` of one row (`pd.NaT` when unresolved, line 76). -/
def parseStart (df : RawTable) (row : List Cell) : Option Int :=
  match canonStartOf df with
  | some c => to_datetime (getCell (normColsOf df) row c)
  | none => none

/-- The parsed `end_time` of one row (lines 78-81 of `App.py`). -/
def parseEnd (df : RawTable) (row : List Cell) : Option Int :=
  match canonOf df "end_time" with
  | some c => to_datetime (getCell (normColsOf df) row c)
  | none => none

/-- `duration_sec` of one row (lines 84-90 of `App.py`): direct read when an
alias resolved, else derived `end − start` in seconds when both parsed
columns have at least one non-missing value, else NaN. -/
def durationOf (df : RawTable) (row : List Cell) : Option Rat :=
  match canonOf df "duration_sec" with
  | some c => to_numeric (getCell (normColsOf df) row c)
  | none =>
    if (df.rows.any fun r => (parseEnd df r).isSome)
        && (df.rows.any fun r => (parseStart df r).isSome) then
      match parseEnd df row, parseStart df row with
      | some e, some s => some ((e - s : Int) : Rat)
      | _, _ => none
    else none

/-- One resolved string identity field of one row (lines 93-97 of `App.py`):
`astype(str)` of the source cell when resolved, column-missing otherwise. -/
def stringField (df : RawTable) (k : String) (row : List Cell) :
    Option String :=
  (canonOf df k).map (fun c => astype_str (getCell (normColsOf df) row c))

/-- One numeric extra (`setup_time_ms` / `cost`, lines 100-101 of
`App.py`). -/
def numField (df : RawTable) (k : String) (row : List Cell) : Option Rat :=
  (canonOf df k).bind (fun c => to_numeric (getCell (normColsOf df) row c))

/-- Keywords of the `answered` family, `"ANSWER|OK|200"` as a substring
alternation (line 105 of `App.py`). -/
def answeredOf (su : String) : Bool :=
  containsSub su "ANSWER" || containsSub su "OK" || containsSub su "200"

/-- Keywords of the `failed` family (line 106 of `App.py`). -/
def failedOf (su : String) : Bool :=
  containsSub su "FAIL" || containsSub su "BUSY" || containsSub su "NO_ANSWER"
    || containsSub su "486" || containsSub su "480" || containsSub su "503"
    || containsSub su "CONGEST"

/-- Direction cleaning (lines 112-116 of `App.py`): lower-case, then exact
synonym replacement. -/
def cleanDirection (s : String) : String :=
  let l := lowerStr s
  if l = "in" then "inbound"
  else if l = "out" then "outbound"
  else if l = "incoming" then "inbound"
  else if l = "outgoing" then "outbound"
  else l

/-- English weekday name of a Monday-based index (`Series.dt.day_name`). -/
def dayName : Int → String
  | 0 => "Monday"
  | 1 => "Tuesday"
  | 2 => "Wednesday"
  | 3 => "Thursday"
  | 4 => "Friday"
  | 5 => "Saturday"
  | _ => "Sunday"

/-- One row of the canonical output table: the columns `standardize_columns`
guarantees to produce. `none` stands for a pandas missing value (NaT / NaN),
which is NOT the same as the present string `"nan"`. `date` is a day index
(days since the epoch), `start_time`/`end_time` are epoch seconds. -/
structure Record where
  start_time : Option Int
  end_time : Option Int
  duration_sec : Option Rat
  caller : Option String
  callee : Option String
  direction : Option String
  status : Option String
  operator : Option String
  country : Option String
  mcc : Option String
  mnc : Option String
  cell_id : Option String
  imsi : Option String
  imei : Option String
  setup_time_ms : Option Rat
  cost : Option Rat
  answered : Bool
  failed : Bool
  date : Option Int
  hour : Option Nat
  weekday : Option String
  deriving DecidableEq, Repr

/-- The canonical record built from one raw row (lines 59-116 of `App.py`,
before the row filter). -/
def buildRecord (df : RawTable) (row : List Cell) : Record :=
  let st := parseStart df row
  let status := stringField df "status" row
  let statusU := upperStr (status.getD "nan")
  { start_time := st
  , end_time := parseEnd df row
  , duration_sec := durationOf df row
  , caller := stringField df "caller" row
  , callee := stringField df "callee" row
  , direction := (stringField df "direction" row).map cleanDirection
  , status := status
  , operator := stringField df "operator" row
  , country := stringField df "country" row
  , mcc := stringField df "mcc" row
  , mnc := stringField df "mnc" row
  , cell_id := stringField df "cell_id" row
  , imsi := stringField df "imsi" row
  , imei := stringField df "imei" row
  , setup_time_ms := numField df "setup_time_ms" row
  , cost := numField df "cost" row
  , answered := answeredOf statusU
  , failed := failedOf statusU
  , date := st.map (fun t => t.fdiv 86400)
  , hour := st.map (fun t => (t.fmod 86400).toNat / 3600)
  , weekday := st.map (fun t => dayName ((t.fdiv 86400 + 3).fmod 7)) }

/-- The message of the `AttributeError` pandas raises when `.str.lower()` is
applied to the float-NaN column of an unresolved `direction`. -/
def directionStrError : String :=
  "Can only use .str accessor with string values"

/-- The normalization pipeline `standardize_columns` (lines 27-120 of
`App.py`). When `direction` resolves to no column and the table has rows,
line 112's `.str.lower()` hits a float-NaN column and raises; otherwise every
row is normalized and rows without a parsed `start_time` are dropped. -/
def standardize_columns (df : RawTable) : Except String (List Record) :=
  if (canonOf df "direction").isNone && df.rows.length != 0 then
    Except.error directionStrError
  else
    Except.ok ((df.rows.map (buildRecord df)).filter
      (fun r => r.start_time.isSome))

/-- The string identity fields of line 93 of `App.py`. -/
def stringFieldNames : List String :=
  ["caller", "callee", "direction", "status", "operator", "country", "mcc",
    "mnc", "cell_id", "imsi", "imei"]

/-- The column names of the canonical output table, in output order. -/
def canonicalCols : List String :=
  ["start_time", "end_time", "duration_sec", "caller", "callee", "direction",
    "status", "operator", "country", "mcc", "mnc", "cell_id", "imsi", "imei",
    "setup_time_ms", "cost", "answered", "failed", "date", "hour", "weekday"]

/-- An optional timestamp written back as a raw cell (NaT = missing). -/
def cellOfOptInt : Option Int → Cell
  | none => Cell.missing
  | some t => Cell.time t

/-- An optional number written back as a raw cell (NaN = missing). -/
def cellOfOptRat : Option Rat → Cell
  | none => Cell.missing
  | some q => Cell.num q

/-- An optional string written back as a raw cell (NaN = missing). -/
def cellOfOptStr : Option String → Cell
  | none => Cell.missing
  | some s => Cell.str s

/-- An optional natural number written back as a raw cell. -/
def cellOfOptNat : Option Nat → Cell
  | none => Cell.missing
  | some n => Cell.num n

/-- One canonical record written back as a raw row under `canonicalCols`. -/
def rawRowOf (r : Record) : List Cell :=
  [cellOfOptInt r.start_time, cellOfOptInt r.end_time,
    cellOfOptRat r.duration_sec, cellOfOptStr r.caller, cellOfOptStr r.callee,
    cellOfOptStr r.direction, cellOfOptStr r.status, cellOfOptStr r.operator,
    cellOfOptStr r.country, cellOfOptStr r.mcc, cellOfOptStr r.mnc,
    cellOfOptStr r.cell_id, cellOfOptStr r.imsi, cellOfOptStr r.imei,
    cellOfOptRat r.setup_time_ms, cellOfOptRat r.cost,
    Cell.boolean r.answered, Cell.boolean r.failed, cellOfOptInt r.date,
    cellOfOptNat r.hour, cellOfOptStr r.weekday]

/-- A canonical output table re-read as a raw input table, its canonical
field names serving as the raw column names (the idempotence experiment of
the spec's §8). -/
def recordsToRaw (rs : List Record) : RawTable :=
  { cols := canonicalCols, rows := rs.map rawRowOf }

/-- Modelled from the spec: the fraction of the NON-missing values of
column `c` that parse as timestamps — the denominator the spec's §4.1
step 3 describes for the inference threshold (refinement comparison for the
threshold rule; the code's own denominator is `parsedFrac`). -/
def specNonMissingFrac (cols : List String) (rows : List (List Cell))
    (c : String) : Rat :=
  let nm := rows.countP (fun r => !(getCell cols r c == Cell.missing))
  if nm = 0 then 0
  else (rows.countP (fun r => (to_datetime (getCell cols r c)).isSome) : Rat)
    / (nm : Rat)

/-- Modelled from the spec: start-time inference as §4.1 step 3 words it,
thresholding on the share of NON-missing values that parse. -/
def specInferStart (cols : List String) (rows : List (List Cell)) :
    Option String :=
  cols.find? (fun c =>
    timeDateName c && specNonMissingFrac cols rows c > (3 : Rat)/5)

/-! Concrete example tables used by the claim theorems, witnesses and
counterexamples, with the output records the pipeline produces on them. -/

/-- A table whose status is the literal `NO_ANSWER`. -/
def exC1 : RawTable :=
  { cols := ["start_time", "direction", "status"]
  , rows := [[Cell.time 0, Cell.str "out", Cell.str "NO_ANSWER"]] }

/-- A table whose status is the literal `200 OK`. -/
def ex200 : RawTable :=
  { cols := ["start_time", "direction", "status"]
  , rows := [[Cell.time 0, Cell.str "out", Cell.str "200 OK"]] }

/-- The record `standardize_columns` produces on `ex200`. -/
def ex200rec : Record :=
  { start_time := some 0, end_time := none, duration_sec := none
  , caller := none, callee := none, direction := some "outbound"
  , status := some "200 OK", operator := none, country := none, mcc := none
  , mnc := none, cell_id := none, imsi := none, imei := none
  , setup_time_ms := none, cost := none, answered := true, failed := false
  , date := some 0, hour := some 0, weekday := some "Thursday" }

/-- A one-row table with a parseable start time but no direction alias. -/
def exC2 : RawTable :=
  { cols := ["start_time"], rows := [[Cell.time 0]] }

/-- A two-row table whose second start-time cell does not parse. -/
def ex3 : RawTable :=
  { cols := ["start_time", "direction"]
  , rows := [[Cell.time 5, Cell.str "in"], [Cell.str "bad", Cell.str "out"]] }

/-- The single surviving record `standardize_columns` produces on `ex3`. -/
def ex3rec : Record :=
  { start_time := some 5, end_time := none, duration_sec := none
  , caller := none, callee := none, direction := some "inbound"
  , status := none, operator := none, country := none, mcc := none
  , mnc := none, cell_id := none, imsi := none, imei := none
  , setup_time_ms := none, cost := none, answered := false, failed := false
  , date := some 0, hour := some 0, weekday := some "Thursday" }

/-- Inference candidate with one missing and one parseable value: all of its
non-missing values parse, but only half of all its rows do. -/
def exC4 : RawTable :=
  { cols := ["my_time"], rows := [[Cell.missing], [Cell.time 0]] }

/-- Inference candidate where exactly half of the (all non-missing) values
parse. -/
def ex50 : RawTable :=
  { cols := ["my_time"], rows := [[Cell.time 0], [Cell.str "x"]] }

/-- Inference candidate where 61 of 100 (all non-missing) values parse. -/
def ex61 : RawTable :=
  { cols := ["my_time"]
  , rows := List.replicate 61 [Cell.time 0] ++ List.replicate 39 [Cell.str "x"] }

/-- A table with a direction column whose only time-named column fails the
inference threshold, so `start_time` stays unresolved. -/
def exNoQ : RawTable :=
  { cols := ["my_time", "direction"]
  , rows := [[Cell.str "x", Cell.str "in"], [Cell.time 0, Cell.str "out"]] }

/-- Header-only table with the two start-time aliases, in one order. -/
def ex5a : RawTable :=
  { cols := ["call_start", "timestamp"], rows := [] }

/-- Header-only table with the two start-time aliases, in the other order. -/
def ex5b : RawTable :=
  { cols := ["timestamp", "call_start"], rows := [] }

/-- A table with only start and end timestamps, 150 seconds apart
(2024-01-01T00:00:00 and 2024-01-01T00:02:30 as epoch seconds). -/
def ex6 : RawTable :=
  { cols := ["start_time", "end_time", "direction"]
  , rows := [[Cell.time 1704067200, Cell.time 1704067350, Cell.str "in"]] }

/-- The record `standardize_columns` produces on `ex6`. -/
def ex6rec : Record :=
  { start_time := some 1704067200, end_time := some 1704067350
  , duration_sec := some 150, caller := none, callee := none
  , direction := some "inbound", status := none, operator := none
  , country := none, mcc := none, mnc := none, cell_id := none, imsi := none
  , imei := none, setup_time_ms := none, cost := none, answered := false
  , failed := false, date := some 19723, hour := some 0
  , weekday := some "Monday" }

/-- A table whose direction value is the upper-case literal `IN`. -/
def ex7 : RawTable :=
  { cols := ["start_time", "direction"]
  , rows := [[Cell.time 0, Cell.str "IN"]] }

/-- A table resolving only `start_time` and `direction`; every other
canonical field stays unresolved (missing output column). -/
def exC8 : RawTable :=
  { cols := ["start_time", "direction"]
  , rows := [[Cell.time 0, Cell.str "in"]] }

/-- The record `standardize_columns` produces on `exC8`. -/
def exC8rec : Record :=
  { start_time := some 0, end_time := none, duration_sec := none
  , caller := none, callee := none, direction := some "inbound"
  , status := none, operator := none, country := none, mcc := none
  , mnc := none, cell_id := none, imsi := none, imei := none
  , setup_time_ms := none, cost := none, answered := false, failed := false
  , date := some 0, hour := some 0, weekday := some "Thursday" }

/-- A table carrying a negative cost value. -/
def exC9 : RawTable :=
  { cols := ["start_time", "direction", "cost"]
  , rows := [[Cell.time 0, Cell.str "in", Cell.num (-5)]] }

/-- A table with non-negative numeric sources and end after start. -/
def ex9w : RawTable :=
  { cols := ["start_time", "end_time", "direction", "cost"]
  , rows := [[Cell.time 10, Cell.time 20, Cell.str "in", Cell.num 2]] }

/-- The record `standardize_columns` produces on `ex9w`. -/
def ex9wrec : Record :=
  { start_time := some 10, end_time := some 20, duration_sec := some 10
  , caller := none, callee := none, direction := some "inbound"
  , status := none, operator := none, country := none, mcc := none
  , mnc := none, cell_id := none, imsi := none, imei := none
  , setup_time_ms := none, cost := some 2, answered := false, failed := false
  , date := some 0, hour := some 0, weekday := some "Thursday" }

/-- A table resolving every string identity field, used to exercise the
idempotent round trip. -/
def exC8w : RawTable :=
  { cols := ["start_time", "caller", "callee", "direction", "status",
      "operator", "country", "mcc", "mnc", "cell_id", "imsi", "imei"]
  , rows := [[Cell.time 0, Cell.str "15551234", Cell.str "15556789",
      Cell.str "in", Cell.str "ANSWERED", Cell.str "OpA", Cell.str "PK",
      Cell.str "410", Cell.str "01", Cell.str "77", Cell.str "12345",
      Cell.str "67890"]] }

/-- The record `standardize_columns` produces on `exC8w`. -/
def exC8wrec : Record :=
  { start_time := some 0, end_time := none, duration_sec := none
  , caller := some "15551234", callee := some "15556789"
  , direction := some "inbound", status := some "ANSWERED"
  , operator := some "OpA", country := some "PK", mcc := some "410"
  , mnc := some "01", cell_id := some "77", imsi := some "12345"
  , imei := some "67890", setup_time_ms := none, cost := none
  , answered := true, failed := false, date := some 0, hour := some 0
  , weekday := some "Thursday" }

/-- A table whose resolved caller column holds a missing cell. -/
def ex10 : RawTable :=
  { cols := ["start_time", "direction", "caller"]
  , rows := [[Cell.time 0, Cell.str "in", Cell.missing]] }

/-- The single row of `ex10`. -/
def ex10row : List Cell :=
  [Cell.time 0, Cell.str "in", Cell.missing]

/-! Helper lemmas. -/

theorem lowerChar_fixed (c : Char) (h1 : ¬ c = 'A') (h2 : ¬ c = 'B')
    (h3 : ¬ c = 'C') (h4 : ¬ c = 'D') (h5 : ¬ c = 'E') (h6 : ¬ c = 'F')
    (h7 : ¬ c = 'G') (h8 : ¬ c = 'H') (h9 : ¬ c = 'I') (h10 : ¬ c = 'J')
    (h11 : ¬ c = 'K') (h12 : ¬ c = 'L') (h13 : ¬ c = 'M') (h14 : ¬ c = 'N')
    (h15 : ¬ c = 'O') (h16 : ¬ c = 'P') (h17 : ¬ c = 'Q') (h18 : ¬ c = 'R')
    (h19 : ¬ c = 'S') (h20 : ¬ c = 'T') (h21 : ¬ c = 'U') (h22 : ¬ c = 'V')
    (h23 : ¬ c = 'W') (h24 : ¬ c = 'X') (h25 : ¬ c = 'Y') (h26 : ¬ c = 'Z') :
    lowerChar c = c := by
  unfold lowerChar
  rw [if_neg h1, if_neg h2, if_neg h3, if_neg h4, if_neg h5, if_neg h6,
    if_neg h7, if_neg h8, if_neg h9, if_neg h10, if_neg h11, if_neg h12,
    if_neg h13, if_neg h14, if_neg h15, if_neg h16, if_neg h17, if_neg h18,
    if_neg h19, if_neg h20, if_neg h21, if_neg h22, if_neg h23, if_neg h24,
    if_neg h25, if_neg h26]

theorem lowerChar_idem (c : Char) : lowerChar (lowerChar c) = lowerChar c := by
  by_cases h1 : c = 'A'; · subst h1; decide
  by_cases h2 : c = 'B'; · subst h2; decide
  by_cases h3 : c = 'C'; · subst h3; decide
  by_cases h4 : c = 'D'; · subst h4; decide
  by_cases h5 : c = 'E'; · subst h5; decide
  by_cases h6 : c = 'F'; · subst h6; decide
  by_cases h7 : c = 'G'; · subst h7; decide
  by_cases h8 : c = 'H'; · subst h8; decide
  by_cases h9 : c = 'I'; · subst h9; decide
  by_cases h10 : c = 'J'; · subst h10; decide
  by_cases h11 : c = 'K'; · subst h11; decide
  by_cases h12 : c = 'L'; · subst h12; decide
  by_cases h13 : c = 'M'; · subst h13; decide
  by_cases h14 : c = 'N'; · subst h14; decide
  by_cases h15 : c = 'O'; · subst h15; decide
  by_cases h16 : c = 'P'; · subst h16; decide
  by_cases h17 : c = 'Q'; · subst h17; decide
  by_cases h18 : c = 'R'; · subst h18; decide
  by_cases h19 : c = 'S'; · subst h19; decide
  by_cases h20 : c = 'T'; · subst h20; decide
  by_cases h21 : c = 'U'; · subst h21; decide
  by_cases h22 : c = 'V'; · subst h22; decide
  by_cases h23 : c = 'W'; · subst h23; decide
  by_cases h24 : c = 'X'; · subst h24; decide
  by_cases h25 : c = 'Y'; · subst h25; decide
  by_cases h26 : c = 'Z'; · subst h26; decide
  simp only [lowerChar_fixed c h1 h2 h3 h4 h5 h6 h7 h8 h9 h10 h11 h12 h13 h14
    h15 h16 h17 h18 h19 h20 h21 h22 h23 h24 h25 h26]

theorem lowerStr_idem (s : String) : lowerStr (lowerStr s) = lowerStr s := by
  unfold lowerStr
  simp only [List.map_map]
  congr 1
  exact List.map_congr_left (fun a _ => lowerChar_idem a)

theorem cleanDirection_shapes (t : String) :
    cleanDirection t = "inbound" ∨ cleanDirection t = "outbound" ∨
      (cleanDirection t = lowerStr t ∧ lowerStr t ≠ "in" ∧ lowerStr t ≠ "out"
        ∧ lowerStr t ≠ "incoming" ∧ lowerStr t ≠ "outgoing") := by
  unfold cleanDirection
  dsimp only
  split_ifs with g1 g2 g3 g4
  · exact Or.inl rfl
  · exact Or.inr (Or.inl rfl)
  · exact Or.inl rfl
  · exact Or.inr (Or.inl rfl)
  · exact Or.inr (Or.inr ⟨rfl, g1, g2, g3, g4⟩)

theorem cleanDirection_idem (s : String) :
    cleanDirection (cleanDirection s) = cleanDirection s := by
  rcases cleanDirection_shapes s with h | h | ⟨h0, h1, h2, h3, h4⟩
  · rw [h]; decide
  · rw [h]; decide
  · rw [h0]
    unfold cleanDirection
    dsimp only
    rw [lowerStr_idem, if_neg h1, if_neg h2, if_neg h3, if_neg h4]

theorem getD_cases {α : Type} (l : List α) (i : Nat) (d : α) :
    l.getD i d = d ∨ l.getD i d ∈ l := by
  induction l generalizing i with
  | nil => left; simp
  | cons a t ih =>
    cases i with
    | zero => right; simp
    | succ n =>
      rw [List.getD_cons_succ]
      rcases ih n with h | h
      · exact Or.inl h
      · exact Or.inr (List.mem_cons_of_mem a h)

theorem getCell_cases (cols : List String) (row : List Cell) (c : String) :
    getCell cols row c = Cell.missing ∨ getCell cols row c ∈ row := by
  unfold getCell
  split
  · exact getD_cases row _ Cell.missing
  · exact Or.inl rfl

theorem find?_decomp {α : Type} {p : α → Bool} {l : List α} {a : α}
    (h : l.find? p = some a) :
    p a = true ∧ ∃ l1 l2, l = l1 ++ a :: l2 ∧ ∀ x ∈ l1, p x = false := by
  induction l with
  | nil => simp [List.find?] at h
  | cons b t ih =>
    by_cases hb : p b = true
    · rw [List.find?_cons_of_pos _ hb] at h
      injection h with h2
      subst h2
      exact ⟨hb, [], t, rfl, by simp⟩
    · rw [List.find?_cons_of_neg _ (by simpa using hb)] at h
      obtain ⟨hpa, l1, l2, hl, hpre⟩ := ih h
      refine ⟨hpa, b :: l1, l2, by simp [hl], ?_⟩
      intro x hx
      rcases List.mem_cons.mp hx with h1 | h1
      · subst h1; simpa using hb
      · exact hpre x h1

theorem find?_congr_pred {α : Type} (p q : α → Bool) (l : List α)
    (h : ∀ x ∈ l, p x = q x) : l.find? p = l.find? q := by
  induction l with
  | nil => rfl
  | cons b t ih =>
    have hb := h b (List.mem_cons_self b t)
    by_cases hpb : p b = true
    · rw [List.find?_cons_of_pos _ hpb, List.find?_cons_of_pos _ (hb ▸ hpb)]
    · have hqb : ¬ q b = true := fun hq => hpb (hb ▸ hq)
      rw [List.find?_cons_of_neg _ (by simpa using hpb),
        List.find?_cons_of_neg _ (by simpa using hqb)]
      exact ih (fun x hx => h x (List.mem_cons_of_mem b hx))

theorem standardize_ok_elim (df : RawTable) (out : List Record)
    (h : standardize_columns df = Except.ok out) :
    out = (df.rows.map (buildRecord df)).filter
      (fun r => r.start_time.isSome) := by
  unfold standardize_columns at h
  split at h
  · exact absurd h (by simp)
  · injection h with h2
    exact h2.symm

theorem to_datetime_cellOfOptInt (o : Option Int) :
    to_datetime (cellOfOptInt o) = o := by cases o <;> rfl

theorem to_numeric_cellOfOptRat (o : Option Rat) :
    to_numeric (cellOfOptRat o) = o := by cases o <;> rfl

theorem astype_str_cellOfOptStr (o : Option String) :
    astype_str (cellOfOptStr o) = o.getD "nan" := by cases o <;> rfl

theorem option_isSome_map {α β : Type} (o : Option α) (f : α → β) :
    (o.map f).isSome = o.isSome := by cases o <;> rfl

theorem option_map_clean_idem (x : Option String) :
    (x.map cleanDirection).map cleanDirection = x.map cleanDirection := by
  cases x with
  | none => rfl
  | some s => simp [cleanDirection_idem]

theorem record_ext {a b : Record}
    (e1 : a.start_time = b.start_time) (e2 : a.end_time = b.end_time)
    (e3 : a.duration_sec = b.duration_sec) (e4 : a.caller = b.caller)
    (e5 : a.callee = b.callee) (e6 : a.direction = b.direction)
    (e7 : a.status = b.status) (e8 : a.operator = b.operator)
    (e9 : a.country = b.country) (e10 : a.mcc = b.mcc) (e11 : a.mnc = b.mnc)
    (e12 : a.cell_id = b.cell_id) (e13 : a.imsi = b.imsi)
    (e14 : a.imei = b.imei) (e15 : a.setup_time_ms = b.setup_time_ms)
    (e16 : a.cost = b.cost) (e17 : a.answered = b.answered)
    (e18 : a.failed = b.failed) (e19 : a.date = b.date)
    (e20 : a.hour = b.hour) (e21 : a.weekday = b.weekday) : a = b := by
  cases a
  cases b
  rw [Record.mk.injEq]
  exact ⟨e1, e2, e3, e4, e5, e6, e7, e8, e9, e10, e11, e12, e13, e14, e15,
    e16, e17, e18, e19, e20, e21⟩

theorem pass2_parseStart (rows : List Record) (r : Record) :
    parseStart (recordsToRaw rows) (rawRowOf r) = r.start_time := by
  show to_datetime (cellOfOptInt r.start_time) = r.start_time
  exact to_datetime_cellOfOptInt _

theorem pass2_parseEnd (rows : List Record) (r : Record) :
    parseEnd (recordsToRaw rows) (rawRowOf r) = r.end_time := by
  show to_datetime (cellOfOptInt r.end_time) = r.end_time
  exact to_datetime_cellOfOptInt _

theorem pass2_build (rows : List Record) (r : Record)
    (hcaller : r.caller.isSome = true) (hcallee : r.callee.isSome = true)
    (hdirection : r.direction.isSome = true) (hstatus : r.status.isSome = true)
    (hoper : r.operator.isSome = true) (hcountry : r.country.isSome = true)
    (hmcc : r.mcc.isSome = true) (hmnc : r.mnc.isSome = true)
    (hcell : r.cell_id.isSome = true) (himsi : r.imsi.isSome = true)
    (himei : r.imei.isSome = true)
    (hdir2 : r.direction.map cleanDirection = r.direction)
    (hans : r.answered = answeredOf (upperStr (r.status.getD "nan")))
    (hfail : r.failed = failedOf (upperStr (r.status.getD "nan")))
    (hdate : r.date = r.start_time.map (fun t => t.fdiv 86400))
    (hhour : r.hour = r.start_time.map (fun t => (t.fmod 86400).toNat / 3600))
    (hweek : r.weekday = r.start_time.map
      (fun t => dayName ((t.fdiv 86400 + 3).fmod 7))) :
    buildRecord (recordsToRaw rows) (rawRowOf r) = r := by
  have hstring : ∀ o : Option String, o.isSome = true →
      some (astype_str (cellOfOptStr o)) = o := by
    intro o ho
    obtain ⟨v, hv⟩ := Option.isSome_iff_exists.mp ho
    rw [hv]
    rfl
  apply record_ext
  · exact pass2_parseStart rows r
  · exact pass2_parseEnd rows r
  · show to_numeric (cellOfOptRat r.duration_sec) = r.duration_sec
    exact to_numeric_cellOfOptRat _
  · show some (astype_str (cellOfOptStr r.caller)) = r.caller
    exact hstring _ hcaller
  · show some (astype_str (cellOfOptStr r.callee)) = r.callee
    exact hstring _ hcallee
  · show some (cleanDirection (astype_str (cellOfOptStr r.direction)))
        = r.direction
    obtain ⟨v, hv⟩ := Option.isSome_iff_exists.mp hdirection
    rw [hv]
    have h2 : cleanDirection v = v := by
      rw [hv] at hdir2
      simpa using hdir2
    show some (cleanDirection ((some v).getD "nan")) = some v
    rw [Option.getD_some, h2]
  · show some (astype_str (cellOfOptStr r.status)) = r.status
    exact hstring _ hstatus
  · show some (astype_str (cellOfOptStr r.operator)) = r.operator
    exact hstring _ hoper
  · show some (astype_str (cellOfOptStr r.country)) = r.country
    exact hstring _ hcountry
  · show some (astype_str (cellOfOptStr r.mcc)) = r.mcc
    exact hstring _ hmcc
  · show some (astype_str (cellOfOptStr r.mnc)) = r.mnc
    exact hstring _ hmnc
  · show some (astype_str (cellOfOptStr r.cell_id)) = r.cell_id
    exact hstring _ hcell
  · show some (astype_str (cellOfOptStr r.imsi)) = r.imsi
    exact hstring _ himsi
  · show some (astype_str (cellOfOptStr r.imei)) = r.imei
    exact hstring _ himei
  · show to_numeric (cellOfOptRat r.setup_time_ms) = r.setup_time_ms
    exact to_numeric_cellOfOptRat _
  · show to_numeric (cellOfOptRat r.cost) = r.cost
    exact to_numeric_cellOfOptRat _
  · show answeredOf (upperStr
        ((some (astype_str (cellOfOptStr r.status))).getD "nan")) = r.answered
    rw [Option.getD_some, astype_str_cellOfOptStr]
    exact hans.symm
  · show failedOf (upperStr
        ((some (astype_str (cellOfOptStr r.status))).getD "nan")) = r.failed
    rw [Option.getD_some, astype_str_cellOfOptStr]
    exact hfail.symm
  · show (parseStart (recordsToRaw rows) (rawRowOf r)).map
        (fun t => t.fdiv 86400) = r.date
    rw [pass2_parseStart]
    exact hdate.symm
  · show (parseStart (recordsToRaw rows) (rawRowOf r)).map
        (fun t => (t.fmod 86400).toNat / 3600) = r.hour
    rw [pass2_parseStart]
    exact hhour.symm
  · show (parseStart (recordsToRaw rows) (rawRowOf r)).map
        (fun t => dayName ((t.fdiv 86400 + 3).fmod 7)) = r.weekday
    rw [pass2_parseStart]
    exact hweek.symm

theorem contains_true_iff (l : List String) (x : String) :
    l.contains x = true ↔ x ∈ l := List.elem_iff

theorem contains_congr_of_perm {l1 l2 : List String} (hperm : l1.Perm l2)
    (x : String) : l1.contains x = l2.contains x := by
  cases h1 : l1.contains x with
  | false =>
    cases h2 : l2.contains x with
    | false => rfl
    | true =>
      have hx1 : x ∈ l1 := hperm.mem_iff.mpr ((contains_true_iff l2 x).mp h2)
      have hc := (contains_true_iff l1 x).mpr hx1
      rw [h1] at hc
      exact hc
  | true =>
    have hx2 : x ∈ l2 := hperm.mem_iff.mp ((contains_true_iff l1 x).mp h1)
    exact ((contains_true_iff l2 x).mpr hx2).symm

theorem frac_exC4_spec :
    specNonMissingFrac ["my_time"] exC4.rows "my_time" = 1 := by
  have h1 : exC4.rows.countP
      (fun r => !(getCell ["my_time"] r "my_time" == Cell.missing)) = 1 := by
    rfl
  have h2 : exC4.rows.countP
      (fun r => (to_datetime (getCell ["my_time"] r "my_time")).isSome)
      = 1 := by rfl
  unfold specNonMissingFrac
  dsimp only
  rw [h1, h2]
  norm_num

theorem infer_exC4_spec :
    specInferStart ["my_time"] exC4.rows = some "my_time" := by
  unfold specInferStart
  refine List.find?_cons_of_pos _ ?_
  show (timeDateName "my_time" && decide
      (specNonMissingFrac ["my_time"] exC4.rows "my_time" > (3 : Rat)/5))
      = true
  rw [frac_exC4_spec, decide_eq_true (show ((1 : Rat) > 3/5) by norm_num)]
  rfl

theorem frac_exC4_code : parsedFrac ["my_time"] exC4.rows "my_time" = 1/2 := by
  have h1 : exC4.rows.countP
      (fun r => (to_datetime (getCell ["my_time"] r "my_time")).isSome)
      = 1 := by rfl
  have h2 : exC4.rows.length = 2 := by rfl
  unfold parsedFrac
  rw [h1, h2]
  norm_num

theorem infer_exC4_code : inferStart ["my_time"] exC4.rows = none := by
  unfold inferStart
  have hcond : (timeDateName "my_time" && decide
      (parsedFrac ["my_time"] exC4.rows "my_time" > (3 : Rat)/5)) = false := by
    rw [frac_exC4_code,
      decide_eq_false (show ¬((1 : Rat)/2 > 3/5) by norm_num)]
    rfl
  rw [List.find?_cons_of_neg _ (by simp [hcond])]
  rfl

theorem frac_ex50 : parsedFrac ["my_time"] ex50.rows "my_time" = 1/2 := by
  have h1 : ex50.rows.countP
      (fun r => (to_datetime (getCell ["my_time"] r "my_time")).isSome)
      = 1 := by rfl
  have h2 : ex50.rows.length = 2 := by rfl
  unfold parsedFrac
  rw [h1, h2]
  norm_num

theorem canonStart_ex50 : canonStartOf ex50 = none := by
  unfold canonStartOf
  rw [show canonOf ex50 "start_time" = none from rfl]
  show inferStart (normColsOf ex50) ex50.rows = none
  rw [show normColsOf ex50 = ["my_time"] from rfl]
  unfold inferStart
  have hcond : (timeDateName "my_time" && decide
      (parsedFrac ["my_time"] ex50.rows "my_time" > (3 : Rat)/5)) = false := by
    rw [frac_ex50, decide_eq_false (show ¬((1 : Rat)/2 > 3/5) by norm_num)]
    rfl
  rw [List.find?_cons_of_neg _ (by simp [hcond])]
  rfl

theorem frac_ex61 : parsedFrac ["my_time"] ex61.rows "my_time" = 61/100 := by
  have h1 : ex61.rows.countP
      (fun r => (to_datetime (getCell ["my_time"] r "my_time")).isSome)
      = 61 := by rfl
  have h2 : ex61.rows.length = 100 := by rfl
  unfold parsedFrac
  rw [h1, h2]
  norm_num

theorem canonStart_ex61 : canonStartOf ex61 = some "my_time" := by
  unfold canonStartOf
  rw [show canonOf ex61 "start_time" = none from rfl]
  show inferStart (normColsOf ex61) ex61.rows = some "my_time"
  rw [show normColsOf ex61 = ["my_time"] from rfl]
  unfold inferStart
  refine List.find?_cons_of_pos _ ?_
  show (timeDateName "my_time" && decide
      (parsedFrac ["my_time"] ex61.rows "my_time" > (3 : Rat)/5)) = true
  rw [frac_ex61, decide_eq_true (show ((61 : Rat)/100 > 3/5) by norm_num)]
  rfl

theorem canonStart_exNoQ : canonStartOf exNoQ = none := by
  unfold canonStartOf
  rw [show canonOf exNoQ "start_time" = none from rfl]
  show inferStart (normColsOf exNoQ) exNoQ.rows = none
  rw [show normColsOf exNoQ = ["my_time", "direction"] from rfl]
  unfold inferStart
  have hfrac : parsedFrac ["my_time", "direction"] exNoQ.rows "my_time"
      = 1/2 := by
    have h1 : exNoQ.rows.countP (fun r =>
        (to_datetime (getCell ["my_time", "direction"] r "my_time")).isSome)
        = 1 := by rfl
    have h2 : exNoQ.rows.length = 2 := by rfl
    unfold parsedFrac
    rw [h1, h2]
    norm_num
  have hc1 : (timeDateName "my_time" && decide
      (parsedFrac ["my_time", "direction"] exNoQ.rows "my_time"
        > (3 : Rat)/5)) = false := by
    rw [hfrac, decide_eq_false (show ¬((1 : Rat)/2 > 3/5) by norm_num)]
    rfl
  rw [List.find?_cons_of_neg _ (by simp [hc1])]
  have hc2 : (timeDateName "direction" && decide
      (parsedFrac ["my_time", "direction"] exNoQ.rows "direction"
        > (3 : Rat)/5)) = false := by
    rw [show timeDateName "direction" = false from rfl]
    rfl
  rw [List.find?_cons_of_neg _ (by simp [hc2])]
  rfl

theorem standardize_exNoQ : standardize_columns exNoQ = Except.ok [] := by
  unfold standardize_columns
  rw [if_neg (by
    simp [show canonOf exNoQ "direction" = some "direction" from rfl])]
  congr 1
  rw [List.filter_eq_nil_iff]
  intro r hr
  obtain ⟨row, hrow, hb⟩ := List.mem_map.mp hr
  subst hb
  have hps : parseStart exNoQ row = none := by
    unfold parseStart
    rw [canonStart_exNoQ]
  show ¬ ((parseStart exNoQ row).isSome = true)
  rw [hps]
  simp

/-! Claim theorems. -/

/-- C1, counterexample: the claim that `answered` and `failed` are never
both true fails on the pipeline itself — a status of `NO_ANSWER` contains
the substring `ANSWER`, so its row gets `answered = true` and
`failed = true`. -/
theorem answered_failed_both_true_on_no_answer :
    ((standardize_columns exC1).toOption.getD []).any
      (fun r => r.answered && r.failed) = true := by rfl

/-- C1, amended: `answered` and `failed` are independent substring tests of
the two keyword families on the upper-cased stored status, so both are true
exactly when the status hits both families (as `NO_ANSWER` does via its
`ANSWER` substring); a status of `200 OK` still yields `answered = true` and
`failed = false`. -/
theorem answered_failed_track_status_keyword_families :
    (∀ df out, standardize_columns df = Except.ok out →
      ∀ r ∈ out, r.answered = answeredOf (upperStr (r.status.getD "nan")) ∧
        r.failed = failedOf (upperStr (r.status.getD "nan"))) ∧
    ((standardize_columns ex200).toOption.getD []).all
      (fun r => r.answered && !r.failed) = true := by
  constructor
  · intro df out h r hr
    have hout := standardize_ok_elim df out h
    subst hout
    obtain ⟨row, hrow, hb⟩ := List.mem_map.mp (List.mem_filter.mp hr).1
    subst hb
    constructor <;> rfl
  · rfl

/-- C1, witness: the keyword characterization instantiated on the concrete
`200 OK` table. -/
theorem answered_failed_track_status_keyword_families_witness :
    standardize_columns ex200 = Except.ok [ex200rec] ∧
    ex200rec.answered = answeredOf (upperStr (ex200rec.status.getD "nan")) ∧
    ex200rec.failed = failedOf (upperStr (ex200rec.status.getD "nan")) := by
  refine ⟨by rfl, ?_⟩
  exact answered_failed_track_status_keyword_families.1 ex200 [ex200rec]
    (by rfl) ex200rec (by simp)

/-- C2, code bug: on a table with a parseable start time but no direction
alias, normalization raises the `.str` accessor `AttributeError` instead of
degrading the unresolved `direction` to a fully-missing column. -/
theorem unresolved_direction_raises_attribute_error :
    standardize_columns exC2 = Except.error directionStrError := by rfl

/-- C3: whenever normalization returns a table, it has at most as many rows
as the input and every surviving row has a parsed, non-missing
`start_time`. -/
theorem row_filter_keeps_parsed_start_and_shrinks (df : RawTable)
    (out : List Record) (h : standardize_columns df = Except.ok out) :
    out.length ≤ df.rows.length ∧ ∀ r ∈ out, r.start_time.isSome = true := by
  have hout := standardize_ok_elim df out h
  subst hout
  constructor
  · exact le_trans (List.length_filter_le _ _)
      (le_of_eq (List.length_map _ _))
  · intro r hr
    simpa using (List.mem_filter.mp hr).2

/-- C3, witness: on `ex3` the unparseable second row is dropped, not
reported as an error. -/
theorem row_filter_keeps_parsed_start_and_shrinks_witness :
    standardize_columns ex3 = Except.ok [ex3rec] ∧
    ([ex3rec] : List Record).length ≤ ex3.rows.length ∧
    ex3rec.start_time.isSome = true := by
  refine ⟨by rfl, ?_, ?_⟩
  · exact (row_filter_keeps_parsed_start_and_shrinks ex3 [ex3rec] (by rfl)).1
  · exact (row_filter_keeps_parsed_start_and_shrinks ex3 [ex3rec] (by rfl)).2
      ex3rec (by simp)

/-- C4, counterexample: on a candidate column where every NON-missing value
parses (so the spec's non-missing-denominator rule selects it), the code
does not select it, because its threshold is over ALL rows and half of them
are missing. -/
theorem inference_threshold_ignores_missing_denominator :
    normColsOf exC4 = ["my_time"] ∧
    specInferStart ["my_time"] exC4.rows = some "my_time" ∧
    inferStart ["my_time"] exC4.rows = none :=
  ⟨rfl, infer_exC4_spec, infer_exC4_code⟩

/-- C4, amended: the inference selects the first time/date-named column
where more than 60% of ALL its values (missing cells counting as
non-parsing) parse as timestamps; a candidate at 50% of all values is never
selected, one at 61% qualifies, and with no qualifying column `start_time`
stays unresolved so normalization returns an empty table. -/
theorem infer_start_first_candidate_all_rows_threshold :
    (∀ cols rows c, inferStart cols rows = some c →
      timeDateName c = true ∧ parsedFrac cols rows c > (3 : Rat)/5 ∧
        ∃ l1 l2, cols = l1 ++ c :: l2 ∧ ∀ x ∈ l1,
          ¬(timeDateName x = true ∧ parsedFrac cols rows x > (3 : Rat)/5)) ∧
    (∀ cols rows, inferStart cols rows = none → ∀ c ∈ cols,
      ¬(timeDateName c = true ∧ parsedFrac cols rows c > (3 : Rat)/5)) ∧
    (parsedFrac ["my_time"] ex50.rows "my_time" = 1/2 ∧
      canonStartOf ex50 = none) ∧
    (parsedFrac ["my_time"] ex61.rows "my_time" = 61/100 ∧
      canonStartOf ex61 = some "my_time") ∧
    standardize_columns exNoQ = Except.ok [] := by
  refine ⟨?_, ?_, ⟨frac_ex50, canonStart_ex50⟩,
    ⟨frac_ex61, canonStart_ex61⟩, standardize_exNoQ⟩
  · intro cols rows c h
    obtain ⟨hp, l1, l2, hdec, hpre⟩ := find?_decomp h
    rw [Bool.and_eq_true] at hp
    refine ⟨hp.1, of_decide_eq_true hp.2, l1, l2, hdec, ?_⟩
    rintro x hx ⟨hx1, hx2⟩
    have hfalse := hpre x hx
    rw [hx1, decide_eq_true hx2] at hfalse
    simp at hfalse
  · intro cols rows h c hc
    rintro ⟨h1, h2⟩
    exact (List.find?_eq_none.mp h c hc) (by rw [h1, decide_eq_true h2]; rfl)

/-- C4, witness: the first-qualifying characterization instantiated on the
61%-parsing candidate column. -/
theorem infer_start_first_candidate_all_rows_threshold_witness :
    inferStart ["my_time"] ex61.rows = some "my_time" ∧
    timeDateName "my_time" = true ∧
    parsedFrac ["my_time"] ex61.rows "my_time" > (3 : Rat)/5 := by
  have hsome : inferStart ["my_time"] ex61.rows = some "my_time" := by
    have h := canonStart_ex61
    unfold canonStartOf at h
    rw [show canonOf ex61 "start_time" = none from rfl] at h
    rw [show normColsOf ex61 = ["my_time"] from rfl] at h
    exact h
  have h2 := infer_start_first_candidate_all_rows_threshold.1 _ _ _ hsome
  exact ⟨hsome, h2.1, h2.2.1⟩

/-- C5: alias resolution picks the first alias of the priority list that is
present among the normalized column names, it is invariant under permuting
the input columns, it is `none` exactly when no alias is present, and on
`["call_start", "timestamp"]` (either order) `start_time` resolves to
`call_start`. -/
theorem alias_priority_first_match_order_independent :
    (∀ k (cols1 cols2 : List String), cols1.Perm cols2 →
      resolveField cols1 k = resolveField cols2 k) ∧
    (∀ cols k c, resolveField cols k = some c → c ∈ aliases k ∧ c ∈ cols ∧
      ∃ l1 l2, aliases k = l1 ++ c :: l2 ∧ ∀ a ∈ l1, a ∉ cols) ∧
    (∀ cols k, (∀ a ∈ aliases k, a ∉ cols) → resolveField cols k = none) ∧
    canonOf ex5a "start_time" = some "call_start" ∧
    canonOf ex5b "start_time" = some "call_start" := by
  refine ⟨?_, ?_, ?_, by rfl, by rfl⟩
  · intro k cols1 cols2 hperm
    unfold resolveField
    exact find?_congr_pred _ _ _ (fun x _ => contains_congr_of_perm hperm x)
  · intro cols k c h
    obtain ⟨hp, l1, l2, hdec, hpre⟩ := find?_decomp h
    refine ⟨?_, (contains_true_iff _ _).mp hp, l1, l2, hdec, ?_⟩
    · rw [hdec]
      exact List.mem_append.mpr (Or.inr (List.mem_cons_self c l2))
    · intro a ha hmem
      have hc := (contains_true_iff cols a).mpr hmem
      rw [hpre a ha] at hc
      exact absurd hc (by decide)
  · intro cols k hall
    apply List.find?_eq_none.mpr
    intro a ha hcon
    exact hall a ha ((contains_true_iff cols a).mp hcon)

/-- C5, witness: order-independence instantiated on the concrete swap of
`["call_start", "timestamp"]`. -/
theorem alias_priority_first_match_order_independent_witness :
    (["call_start", "timestamp"] : List String).Perm
      ["timestamp", "call_start"] ∧
    resolveField ["call_start", "timestamp"] "start_time" =
      resolveField ["timestamp", "call_start"] "start_time" := by
  have hp : (["call_start", "timestamp"] : List String).Perm
      ["timestamp", "call_start"] := List.Perm.swap "timestamp" "call_start" []
  exact ⟨hp,
    alias_priority_first_match_order_independent.1 "start_time" _ _ hp⟩

/-- C6: when `duration_sec` has no alias and both parsed endpoint columns
have at least one non-missing value, each surviving row's duration is its
own `end_time` minus `start_time` in seconds, missing where either endpoint
is missing. -/
theorem duration_derived_from_end_minus_start (df : RawTable)
    (out : List Record)
    (hdur : canonOf df "duration_sec" = none)
    (hend : (df.rows.any fun r => (parseEnd df r).isSome) = true)
    (hst : (df.rows.any fun r => (parseStart df r).isSome) = true)
    (h : standardize_columns df = Except.ok out) :
    ∀ r ∈ out, r.duration_sec =
      match r.end_time, r.start_time with
      | some e, some s => some ((e - s : Int) : Rat)
      | _, _ => none := by
  have hout := standardize_ok_elim df out h
  subst hout
  intro r hr
  obtain ⟨row, hrow, hb⟩ := List.mem_map.mp (List.mem_filter.mp hr).1
  subst hb
  show durationOf df row = _
  unfold durationOf
  rw [hdur]
  dsimp only
  rw [hend, hst]
  rfl

/-- C6, witness: on start `2024-01-01T00:00:00` and end
`2024-01-01T00:02:30` (epoch seconds) the derived duration is 150. -/
theorem duration_derived_from_end_minus_start_witness :
    canonOf ex6 "duration_sec" = none ∧
    (ex6.rows.any fun r => (parseEnd ex6 r).isSome) = true ∧
    (ex6.rows.any fun r => (parseStart ex6 r).isSome) = true ∧
    ex6rec.duration_sec = some 150 := by
  refine ⟨by rfl, by rfl, by rfl, ?_⟩
  have h := duration_derived_from_end_minus_start ex6 [ex6rec] (by rfl)
    (by rfl) (by rfl) (by rfl) ex6rec (by simp)
  exact h.trans (by decide)

/-- C7: direction cleaning lower-cases and then maps the four exact
synonyms, so `IN`, `Incoming` and `in` all become `inbound`, any value
outside the synonym set passes through lower-cased, and the pipeline maps a
raw `IN` to an output direction of `inbound`. -/
theorem direction_synonym_canonicalization :
    cleanDirection "IN" = "inbound" ∧ cleanDirection "Incoming" = "inbound" ∧
    cleanDirection "in" = "inbound" ∧
    (∀ s, lowerStr s ∉ (["in", "out", "incoming", "outgoing"] : List String) →
      cleanDirection s = lowerStr s) ∧
    ((standardize_columns ex7).toOption.getD []).map Record.direction =
      [some "inbound"] := by
  refine ⟨by decide, by decide, by decide, ?_, by rfl⟩
  intro s hs
  have n1 : ¬ lowerStr s = "in" := fun h => hs (by rw [h]; simp)
  have n2 : ¬ lowerStr s = "out" := fun h => hs (by rw [h]; simp)
  have n3 : ¬ lowerStr s = "incoming" := fun h => hs (by rw [h]; simp)
  have n4 : ¬ lowerStr s = "outgoing" := fun h => hs (by rw [h]; simp)
  unfold cleanDirection
  dsimp only
  rw [if_neg n1, if_neg n2, if_neg n3, if_neg n4]

/-- C7, witness: the passthrough case instantiated at `transfer`. -/
theorem direction_synonym_canonicalization_witness :
    lowerStr "transfer" ∉
      (["in", "out", "incoming", "outgoing"] : List String) ∧
    cleanDirection "transfer" = lowerStr "transfer" := by
  refine ⟨by decide, ?_⟩
  exact direction_synonym_canonicalization.2.2.2.1 "transfer" (by decide)

/-- C8, counterexample: re-normalizing the canonical output of `exC8` (whose
`caller` column is fully missing) does not reproduce the same records — the
missing caller cells come back as the present string `"nan"`. -/
theorem renormalize_differs_on_unresolved_string_field :
    (standardize_columns exC8).toOption = some [exC8rec] ∧
    (standardize_columns (recordsToRaw [exC8rec])).toOption
      ≠ some [exC8rec] := by
  constructor
  · rfl
  · decide

/-- C8, amended: re-normalizing the canonical output yields the same records
provided every string identity field resolved in the first pass (otherwise
a missing column's NaN values return as the string `"nan"`); canonical
names are themselves aliases, so each field re-resolves to itself. -/
theorem renormalize_idempotent_when_string_fields_resolved (df : RawTable)
    (out : List Record)
    (h : standardize_columns df = Except.ok out)
    (hres : ∀ k ∈ stringFieldNames, (canonOf df k).isSome = true) :
    standardize_columns (recordsToRaw out) = Except.ok out := by
  have hout := standardize_ok_elim df out h
  have hmem : ∀ r ∈ out, buildRecord (recordsToRaw out) (rawRowOf r) = r ∧
      r.start_time.isSome = true := by
    intro r hr
    rw [hout] at hr
    have hstart := (List.mem_filter.mp hr).2
    obtain ⟨row, hrow, hb⟩ := List.mem_map.mp (List.mem_filter.mp hr).1
    refine ⟨?_, by simpa using hstart⟩
    subst hb
    apply pass2_build
    · show ((canonOf df "caller").map _).isSome = true
      rw [option_isSome_map]
      exact hres "caller" (by decide)
    · show ((canonOf df "callee").map _).isSome = true
      rw [option_isSome_map]
      exact hres "callee" (by decide)
    · show (((canonOf df "direction").map _).map cleanDirection).isSome = true
      rw [option_isSome_map, option_isSome_map]
      exact hres "direction" (by decide)
    · show ((canonOf df "status").map _).isSome = true
      rw [option_isSome_map]
      exact hres "status" (by decide)
    · show ((canonOf df "operator").map _).isSome = true
      rw [option_isSome_map]
      exact hres "operator" (by decide)
    · show ((canonOf df "country").map _).isSome = true
      rw [option_isSome_map]
      exact hres "country" (by decide)
    · show ((canonOf df "mcc").map _).isSome = true
      rw [option_isSome_map]
      exact hres "mcc" (by decide)
    · show ((canonOf df "mnc").map _).isSome = true
      rw [option_isSome_map]
      exact hres "mnc" (by decide)
    · show ((canonOf df "cell_id").map _).isSome = true
      rw [option_isSome_map]
      exact hres "cell_id" (by decide)
    · show ((canonOf df "imsi").map _).isSome = true
      rw [option_isSome_map]
      exact hres "imsi" (by decide)
    · show ((canonOf df "imei").map _).isSome = true
      rw [option_isSome_map]
      exact hres "imei" (by decide)
    · show ((stringField df "direction" row).map cleanDirection).map
          cleanDirection = (stringField df "direction" row).map cleanDirection
      exact option_map_clean_idem _
    · rfl
    · rfl
    · rfl
    · rfl
    · rfl
  unfold standardize_columns
  rw [if_neg (by simp [show canonOf (recordsToRaw out) "direction"
    = some "direction" from rfl])]
  congr 1
  show ((out.map rawRowOf).map (buildRecord (recordsToRaw out))).filter
      (fun r => r.start_time.isSome) = out
  rw [List.map_map]
  have hmap : out.map (buildRecord (recordsToRaw out) ∘ rawRowOf) = out := by
    have hcongr := List.map_congr_left
      (l := out) (f := buildRecord (recordsToRaw out) ∘ rawRowOf) (g := id)
      (fun r hr => (hmem r hr).1)
    simpa using hcongr
  rw [hmap]
  exact List.filter_eq_self.mpr (fun r hr => (hmem r hr).2)

/-- C8, witness: the idempotent round trip on a table that resolves every
string identity field. -/
theorem renormalize_idempotent_when_string_fields_resolved_witness :
    standardize_columns exC8w = Except.ok [exC8wrec] ∧
    standardize_columns (recordsToRaw [exC8wrec])
      = Except.ok [exC8wrec] := by
  refine ⟨by rfl, ?_⟩
  exact renormalize_idempotent_when_string_fields_resolved exC8w [exC8wrec]
    (by rfl) (by decide)

/-- C9, counterexample: a negative cost value in the source passes through
to the output unvalidated, so the numeric fields are not always
non-negative when present. -/
theorem negative_cost_passes_through :
    ((standardize_columns exC9).toOption.getD []).any
      (fun r => match r.cost with
        | some q => decide (q < 0)
        | none => false) = true := by rfl

/-- C9, amended: the numeric fields are non-negative whenever present,
provided every numeric source value is non-negative and no row's end time
precedes its start time; the pipeline itself applies no sign check. -/
theorem numeric_fields_nonneg_when_sources_nonneg (df : RawTable)
    (out : List Record)
    (h : standardize_columns df = Except.ok out)
    (hnum : ∀ row ∈ df.rows, ∀ cell ∈ row, 0 ≤ (to_numeric cell).getD 0)
    (hord : ∀ row ∈ df.rows,
      (parseStart df row).getD 0 ≤
        (parseEnd df row).getD ((parseStart df row).getD 0)) :
    ∀ r ∈ out, 0 ≤ (r.duration_sec).getD 0 ∧ 0 ≤ (r.setup_time_ms).getD 0 ∧
      0 ≤ (r.cost).getD 0 := by
  have hout := standardize_ok_elim df out h
  subst hout
  intro r hr
  obtain ⟨row, hrow, hb⟩ := List.mem_map.mp (List.mem_filter.mp hr).1
  subst hb
  have hcell : ∀ c, (0 : Rat) ≤
      (to_numeric (getCell (normColsOf df) row c)).getD 0 := by
    intro c
    rcases getCell_cases (normColsOf df) row c with hc | hc
    · rw [hc]
      exact le_refl 0
    · exact hnum row hrow _ hc
  refine ⟨?_, ?_, ?_⟩
  · show (0 : Rat) ≤ (durationOf df row).getD 0
    unfold durationOf
    cases hq : canonOf df "duration_sec" with
    | some c =>
      exact hcell c
    | none =>
      cases he : parseEnd df row with
      | none =>
        simp only [hq, he]
        split
        · exact le_refl 0
        · exact le_refl 0
      | some e =>
        cases hs2 : parseStart df row with
        | none =>
          simp only [hq, he, hs2]
          split
          · exact le_refl 0
          · exact le_refl 0
        | some s =>
          simp only [hq, he, hs2]
          split
          · have hrow2 := hord row hrow
            rw [hs2, he] at hrow2
            simp only [Option.getD_some] at hrow2
            simp only [Option.getD_some]
            exact_mod_cast sub_nonneg.mpr hrow2
          · exact le_refl 0
  · show (0 : Rat) ≤ (numField df "setup_time_ms" row).getD 0
    unfold numField
    cases hq : canonOf df "setup_time_ms" with
    | none => simp [hq]
    | some c =>
      simp only [hq, Option.some_bind]
      exact hcell c
  · show (0 : Rat) ≤ (numField df "cost" row).getD 0
    unfold numField
    cases hq : canonOf df "cost" with
    | none => simp [hq]
    | some c =>
      simp only [hq, Option.some_bind]
      exact hcell c

/-- C9, witness: the conditional non-negativity instantiated on a table
whose sources are non-negative with end after start. -/
theorem numeric_fields_nonneg_when_sources_nonneg_witness :
    standardize_columns ex9w = Except.ok [ex9wrec] ∧
    (0 : Rat) ≤ (ex9wrec.duration_sec).getD 0 ∧
    (0 : Rat) ≤ (ex9wrec.cost).getD 0 := by
  refine ⟨by rfl, ?_, ?_⟩
  · exact ((numeric_fields_nonneg_when_sources_nonneg ex9w [ex9wrec] (by rfl)
      (by decide) (by decide)) ex9wrec (by simp)).1
  · exact ((numeric_fields_nonneg_when_sources_nonneg ex9w [ex9wrec] (by rfl)
      (by decide) (by decide)) ex9wrec (by simp)).2.2

/-- C10: for a resolved string identity field, a missing cell in the source
column surfaces in the output as the present literal string `"nan"` (not as
a missing value), and on `ex10` the output caller is exactly
`some "nan"`. -/
theorem missing_cell_resolved_string_field_becomes_nan_string :
    (∀ df k row c, k ∈ stringFieldNames → canonOf df k = some c →
      getCell (normColsOf df) row c = Cell.missing →
      stringField df k row = some "nan") ∧
    ((standardize_columns ex10).toOption.getD []).map Record.caller =
      [some "nan"] := by
  constructor
  · intro df k row c _ hc hm
    unfold stringField
    rw [hc]
    show some (astype_str (getCell (normColsOf df) row c)) = some "nan"
    rw [hm]
    rfl
  · rfl

/-- C10, witness: the `"nan"` coercion instantiated on the missing caller
cell of `ex10`. -/
theorem missing_cell_resolved_string_field_becomes_nan_string_witness :
    ("caller" ∈ stringFieldNames) ∧ canonOf ex10 "caller" = some "caller" ∧
    getCell (normColsOf ex10) ex10row "caller" = Cell.missing ∧
    stringField ex10 "caller" ex10row = some "nan" := by
  refine ⟨by decide, by rfl, by rfl, ?_⟩
  exact missing_cell_resolved_string_field_becomes_nan_string.1 ex10 "caller"
    ex10row "caller" (by decide) (by rfl) (by rfl)

end CdrDash
